import Mathlib

set_option linter.dupNamespace false

/-!
# Verification of the zerometry spatial-relation engine

Shallow embedding of the zerometry repository: a binary encoding for 2-D
geometries together with a spatial-relation engine.  Coordinates are modelled
as exact rationals; the source's `f64` arithmetic is exact on every concrete
input used below (small integers and halves), so the model agrees with the
code there.  `f64::EPSILON` is the exact rational `2⁻⁵²`.
-/

namespace Zerometry

/-- `f64::EPSILON`, used by `Segment::intersects` as collinearity tolerance. -/
def epsilon : ℚ := 1 / 2 ^ 52

/-- `f64::abs`, written out so the kernel can evaluate it. -/
def qabs (q : ℚ) : ℚ := if q < 0 then -q else q

/-- `f64::min`, written out so the kernel can evaluate it. -/
def qmin (a b : ℚ) : ℚ := if a ≤ b then a else b

/-- `f64::max`, written out so the kernel can evaluate it. -/
def qmax (a b : ℚ) : ℚ := if a ≤ b then b else a

/-- One (x, y) pair: `src/coord.rs` `Coord` (`lng`, `lat`). -/
structure Coord where
  lng : ℚ
  lat : ℚ
deriving DecidableEq, Repr

/-- `src/segment.rs` `Segment`: start and end coordinates. -/
structure Segment where
  start : Coord
  stop : Coord
deriving DecidableEq, Repr

/-- The cross-product value inside `orientation` in `Segment::intersects`. -/
def orientationVal (p q r : Coord) : ℚ :=
  (q.lat - p.lat) * (r.lng - q.lng) - (q.lng - p.lng) * (r.lat - q.lat)

/-- Classify an orientation value: 0 collinear (within epsilon), 1 clockwise,
2 counter-clockwise; `orientation` in `Segment::intersects`. -/
def orientation (p q r : Coord) : ℕ :=
  if qabs (orientationVal p q r) < epsilon then 0
  else if orientationVal p q r > 0 then 1
  else 2

/-- `on_segment` in `Segment::intersects`: `q` within the axis-aligned
bounding range of `p` and `r`. -/
def onSegment (p q r : Coord) : Bool :=
  decide (qmin p.lng r.lng ≤ q.lng ∧ q.lng ≤ qmax p.lng r.lng ∧
    qmin p.lat r.lat ≤ q.lat ∧ q.lat ≤ qmax p.lat r.lat)

/-- The cross product of the two direction vectors (`cross_rs` in
`Segment::intersects`). -/
def crossDir (s o : Segment) : ℚ :=
  (s.stop.lng - s.start.lng) * (o.stop.lat - o.start.lat) -
    (s.stop.lat - s.start.lat) * (o.stop.lng - o.start.lng)

/-- The guard of the general case in `Segment::intersects`: `o1 != o2 && o3
!= o4`, both straddle tests pass. -/
def generalPosition (s o : Segment) : Prop :=
  orientation s.start s.stop o.start ≠ orientation s.start s.stop o.stop ∧
    orientation o.start o.stop s.start ≠ orientation o.start o.stop s.stop

instance (s o : Segment) : Decidable (generalPosition s o) := by
  unfold generalPosition; infer_instance

/-- `Segment::intersects` (src/segment.rs lines 44-104).  In the general case
(both straddle tests pass) the crate additionally requires the cross product
of the direction vectors to be positive, making the test directional; the
collinear special cases fall back to `on_segment` range checks. -/
def Segment.intersects (s o : Segment) : Bool :=
  if generalPosition s o then
    decide (crossDir s o > 0)
  else if orientation s.start s.stop o.start = 0 ∧ onSegment s.start o.start s.stop then true
  else if orientation s.start s.stop o.stop = 0 ∧ onSegment s.start o.stop s.stop then true
  else if orientation o.start o.stop s.start = 0 ∧ onSegment o.start s.start o.stop then true
  else if orientation o.start o.stop s.stop = 0 ∧ onSegment o.start s.stop o.stop then true
  else false

/-- `src/bounding_box.rs` `BoundingBox`: bottom-left and top-right corners. -/
structure BoundingBox where
  bottomLeft : Coord
  topRight : Coord
deriving DecidableEq, Repr

def BoundingBox.bottom (b : BoundingBox) : ℚ := b.bottomLeft.lat
def BoundingBox.top (b : BoundingBox) : ℚ := b.topRight.lat
def BoundingBox.left (b : BoundingBox) : ℚ := b.bottomLeft.lng
def BoundingBox.right (b : BoundingBox) : ℚ := b.topRight.lng

/-- `BoundingBox::contains_coord`: closed-interval containment on both axes. -/
def BoundingBox.containsCoord (b : BoundingBox) (c : Coord) : Bool :=
  decide (b.bottom ≤ c.lat ∧ c.lat ≤ b.top ∧ b.left ≤ c.lng ∧ c.lng ≤ b.right)

/-- `lo..=hi` range containment used by the box-vs-box relation. -/
def rangeContains (lo hi x : ℚ) : Bool := decide (lo ≤ x ∧ x ≤ hi)

/-- Modelled from the spec: the `Relation` result enum of the older relation
API.  Its definition is missing from src/ (only its users — `zolygon.rs`,
`zulti_points.rs`, `zulti_polygon.rs`, `test.rs` — are present); the four
variants are exactly those named at the call sites and in spec §4.1/§4.3. -/
inductive Relation
  | Contains
  | Contained
  | Intersects
  | Disjoint
deriving DecidableEq, Repr

/-- The branch selected by the box-vs-box relation as a pure function of the
eight corner-range tests, mirroring the `match` in `bounding_box.rs` lines
222-254 (`p*`: self's ranges contain other's endpoints, `q*`: the reverse). -/
def bboxBranch (p1 p2 p3 p4 q1 q2 q3 q4 : Bool) : Relation :=
  match p1, p2, p3, p4 with
  | true, true, true, true => .Contains
  | false, false, false, false =>
    match q1, q2, q3, q4 with
    | true, true, true, true => .Contained
    | false, false, false, false => .Disjoint
    | _, _, _, _ => .Intersects
  | _, _, _, _ => .Intersects

/-- Box-vs-box relation outcome (`bounding_box.rs` lines 222-254; also the
older enum-returning version used by `zolygon.rs`, which is missing from src/
and modelled from the same branch structure, per spec §4.1). -/
def BoundingBox.relationCase (s o : BoundingBox) : Relation :=
  bboxBranch
    (rangeContains s.bottom s.top o.bottom) (rangeContains s.bottom s.top o.top)
    (rangeContains s.left s.right o.left) (rangeContains s.left s.right o.right)
    (rangeContains o.bottom o.top s.bottom) (rangeContains o.bottom o.top s.top)
    (rangeContains o.left o.right s.left) (rangeContains o.left o.right s.right)

/-- `consecutive_pairs` over a coordinate list: sliding windows of stride 1
(`src/coords.rs` `Coords::consecutive_pairs`). -/
def consecutivePairs (l : List Coord) : List Segment :=
  (l.zip l.tail).map fun p => ⟨p.1, p.2⟩

/-- `src/zolygon.rs` `Zolygon`: bounding box plus exterior-ring coordinates. -/
structure Zolygon where
  bbox : BoundingBox
  coords : List Coord
deriving DecidableEq, Repr

def Zolygon.isEmpty (p : Zolygon) : Bool := p.coords.isEmpty

def Zolygon.segments (p : Zolygon) : List Segment := consecutivePairs p.coords

/-- The horizontal ray used by the point-in-polygon test: from the left edge
of the polygon's bounding box at the query latitude to the query point. -/
def rayTo (p : Zolygon) (c : Coord) : Segment := ⟨⟨p.bbox.left, c.lat⟩, c⟩

/-- Number of polygon edges the ray hits (the `intersections` counter). -/
def Zolygon.crossings (p : Zolygon) (c : Coord) : ℕ :=
  (p.segments.filter fun s => s.intersects (rayTo p c)).length

/-- Polygon-vs-coordinate relation: ray casting with the even-odd rule
(`zolygon.rs` lines 100-135). -/
def Zolygon.relationCoord (p : Zolygon) (c : Coord) : Relation :=
  if p.isEmpty then .Disjoint
  else if ¬p.bbox.containsCoord c then .Disjoint
  else if p.crossings c % 2 = 0 then .Disjoint
  else .Contains

/-- Polygon-vs-polygon relation (`zolygon.rs` lines 160-193): empty/bbox
short-circuit, all-pairs segment intersection, then single-vertex sampling.
The `headD` defaults are unreachable: both rings are non-empty there. -/
def Zolygon.relationZolygon (a b : Zolygon) : Relation :=
  if a.isEmpty || b.isEmpty then .Disjoint
  else if a.bbox.relationCase b.bbox == .Disjoint then .Disjoint
  else if a.segments.any fun s => b.segments.any fun t => s.intersects t then .Intersects
  else if b.relationCoord (a.coords.headD ⟨0, 0⟩) == .Contains then .Contained
  else if a.relationCoord (b.coords.headD ⟨0, 0⟩) == .Contains then .Contains
  else .Disjoint

/-! ## The request/result relation algebra (`src/lib.rs` lines 43-342) -/

/-- `InputRelation` (src/lib.rs lines 46-69): the set of relation flags the
caller asks for, plus the early-exit switch. -/
structure InputRelation where
  contains : Bool := false
  strict_contains : Bool := false
  contained : Bool := false
  strict_contained : Bool := false
  intersect : Bool := false
  disjoint : Bool := false
  early_exit : Bool := false
deriving DecidableEq, Repr

/-- `InputRelation::all`: everything requested, no early exit. -/
def InputRelation.all : InputRelation :=
  ⟨true, true, true, true, true, true, false⟩

/-- `InputRelation::any`: everything requested, with early exit. -/
def InputRelation.any : InputRelation :=
  ⟨true, true, true, true, true, true, true⟩

/-- `InputRelation::swap_contains_relation`. -/
def InputRelation.swapContainsRelation (r : InputRelation) : InputRelation :=
  { r with contains := r.contained, contained := r.contains,
           strict_contains := r.strict_contained, strict_contained := r.strict_contains }

/-- `InputRelation::strip_strict`. -/
def InputRelation.stripStrict (r : InputRelation) : InputRelation :=
  { r with strict_contains := false, strict_contained := false }

/-- `InputRelation::strip_strict_contained`. -/
def InputRelation.stripStrictContained (r : InputRelation) : InputRelation :=
  { r with strict_contained := false }

/-- `InputRelation::strip_disjoint`. -/
def InputRelation.stripDisjoint (r : InputRelation) : InputRelation :=
  { r with disjoint := false }

/-- `OutputRelation` (src/lib.rs lines 133-141): tri-state result flags.
`none` = not requested / not evaluated. -/
structure OutputRelation where
  contains : Option Bool := none
  strict_contains : Option Bool := none
  contained : Option Bool := none
  strict_contained : Option Bool := none
  intersect : Option Bool := none
  disjoint : Option Bool := none
deriving DecidableEq, Repr

/-- `bool::then_some(false)` used by `false_from_input`. -/
def thenSomeFalse (b : Bool) : Option Bool := if b then some false else none

/-- `OutputRelation::false_from_input` (src/lib.rs lines 144-153): seed every
requested flag to `Some(false)`. -/
def OutputRelation.falseFromInput (r : InputRelation) : OutputRelation :=
  ⟨thenSomeFalse r.contains, thenSomeFalse r.strict_contains,
   thenSomeFalse r.contained, thenSomeFalse r.strict_contained,
   thenSomeFalse r.intersect, thenSomeFalse r.disjoint⟩

/-- `InputRelation::to_false`. -/
def InputRelation.toFalse (r : InputRelation) : OutputRelation :=
  OutputRelation.falseFromInput r

def OutputRelation.makeContainsIfSet (o : OutputRelation) : OutputRelation :=
  { o with contains := o.contains.map fun _ => true }

/-- Sets both `contains` and `strict_contains` to true where set. -/
def OutputRelation.makeStrictContainsIfSet (o : OutputRelation) : OutputRelation :=
  ({ o with strict_contains := o.strict_contains.map fun _ => true }).makeContainsIfSet

def OutputRelation.makeContainedIfSet (o : OutputRelation) : OutputRelation :=
  { o with contained := o.contained.map fun _ => true }

/-- Sets both `contained` and `strict_contained` to true where set. -/
def OutputRelation.makeStrictContainedIfSet (o : OutputRelation) : OutputRelation :=
  ({ o with strict_contained := o.strict_contained.map fun _ => true }).makeContainedIfSet

def OutputRelation.makeIntersectIfSet (o : OutputRelation) : OutputRelation :=
  { o with intersect := o.intersect.map fun _ => true }

def OutputRelation.makeDisjointIfSet (o : OutputRelation) : OutputRelation :=
  { o with disjoint := o.disjoint.map fun _ => true }

/-- `OutputRelation::any_relation` (src/lib.rs lines 231-240): some true flag
excluding disjoint. -/
def OutputRelation.anyRelation (o : OutputRelation) : Bool :=
  !o.disjoint.getD false &&
    (o.contains.getD false || o.strict_contains.getD false || o.contained.getD false ||
      o.strict_contained.getD false || o.intersect.getD false)

/-- One flag of the `BitOr` combination (src/lib.rs lines 290-336): a `Some`
flag on the left absorbs the right's value, `None` stays `None`. -/
def orFlag (a b : Option Bool) : Option Bool :=
  match a with
  | some s => some (s || b.getD false)
  | none => none

/-- `OutputRelation`'s `BitOr`: flag-wise OR keeping the left's set-ness. -/
def OutputRelation.orRel (a b : OutputRelation) : OutputRelation :=
  ⟨orFlag a.contains b.contains, orFlag a.strict_contains b.strict_contains,
   orFlag a.contained b.contained, orFlag a.strict_contained b.strict_contained,
   orFlag a.intersect b.intersect, orFlag a.disjoint b.disjoint⟩

/-- `OutputRelation::swap_contains_relation`. -/
def OutputRelation.swapContainsRelation (o : OutputRelation) : OutputRelation :=
  { o with contains := o.contained, contained := o.contains,
           strict_contains := o.strict_contained, strict_contained := o.strict_contains }

/-! ## Relations between the geometry views (new request/result API) -/

/-- Box-vs-box relation under the request/result API (`bounding_box.rs`
lines 222-254): the branch applies the matching make-function to the
all-false seed. -/
def BoundingBox.relationBB (s o : BoundingBox) (r : InputRelation) : OutputRelation :=
  match s.relationCase o with
  | .Contains => r.toFalse.makeStrictContainsIfSet
  | .Contained => r.toFalse.makeStrictContainedIfSet
  | .Disjoint => r.toFalse.makeDisjointIfSet
  | .Intersects => r.toFalse.makeIntersectIfSet

/-- The `disjoint` convenience query of `RelationBetweenShapes` (src/lib.rs
lines 420-431) instantiated at box-vs-box. -/
def BoundingBox.disjointB (s o : BoundingBox) : Bool :=
  (s.relationBB o { disjoint := true, early_exit := true }).disjoint.getD false

/-- Modelled from the spec: the polygon-vs-coordinate relation under the
request/result API is missing from src/ (src/zolygon.rs holds only the older
enum-returning version); per spec §4.3/§4.5 it reports strict containment
when the ray-casting test hits, else disjoint. -/
def Zolygon.relationCoordNew (p : Zolygon) (c : Coord) (r : InputRelation) : OutputRelation :=
  if p.relationCoord c == .Contains then r.toFalse.makeStrictContainsIfSet
  else r.toFalse.makeDisjointIfSet

/-- The `contains` convenience query of `RelationBetweenShapes` at
polygon-vs-coordinate, as called by `zine.rs` line 153. -/
def Zolygon.containsB (p : Zolygon) (c : Coord) : Bool :=
  (p.relationCoordNew c { contains := true, early_exit := true }).contains.getD false

/-- Modelled from the spec: the polygon-vs-polygon relation under the
request/result API is missing from src/ (src/zolygon.rs holds only the older
enum-returning version, `Zolygon.relationZolygon` above); per spec §4.3 each
enum outcome maps to the corresponding make-function on the all-false seed,
with the strict flag set too since a polygon is a single-part shape. -/
def Zolygon.relationNew (a b : Zolygon) (r : InputRelation) : OutputRelation :=
  match a.relationZolygon b with
  | .Intersects => r.toFalse.makeIntersectIfSet
  | .Contains => r.toFalse.makeStrictContainsIfSet
  | .Contained => r.toFalse.makeStrictContainedIfSet
  | .Disjoint => r.toFalse.makeDisjointIfSet

/-- `src/zine.rs` `Zine` (LineString view): bounding box plus vertices. -/
structure Zine where
  bbox : BoundingBox
  coords : List Coord
deriving DecidableEq, Repr

def Zine.isEmpty (l : Zine) : Bool := l.coords.isEmpty

def Zine.segments (l : Zine) : List Segment := consecutivePairs l.coords

/-- LineString-vs-polygon relation (`zine.rs` lines 132-159): short-circuit,
segment crossings, else first-vertex containment marks the line as strictly
contained.  The `headD` default is unreachable: the line is non-empty there. -/
def Zine.relationZolygon (l : Zine) (p : Zolygon) (r : InputRelation) : OutputRelation :=
  if l.isEmpty || p.isEmpty || l.bbox.disjointB p.bbox then
    r.toFalse.makeDisjointIfSet
  else if l.segments.any fun s => p.segments.any fun t => s.intersects t then
    r.toFalse.makeIntersectIfSet
  else if p.containsB (l.coords.headD ⟨0, 0⟩) then
    r.toFalse.makeStrictContainedIfSet
  else
    r.toFalse.makeDisjointIfSet

/-- `src/zulti_lines.rs` `ZultiLines` (MultiLineString view), abstracting the
offset table to the decoded member list. -/
structure ZultiLines where
  bbox : BoundingBox
  lines : List Zine
deriving DecidableEq, Repr

def ZultiLines.isEmpty (m : ZultiLines) : Bool := m.lines.isEmpty

def ZultiLines.len (m : ZultiLines) : ℕ := m.lines.length

/-- The loop of `ZultiLines`-vs-`Zolygon` (`zulti_lines.rs` lines 216-227):
OR-combining per-line results, counting lines individually contained,
early-exiting when requested. -/
def ZultiLines.relZolygonLoop (p : Zolygon) (r : InputRelation) :
    List Zine → OutputRelation → ℕ → ℕ → OutputRelation
  | [], output, containedCount, total =>
    let output := if containedCount = total then output.makeStrictContainsIfSet else output
    if output.anyRelation then output else output.makeDisjointIfSet
  | line :: rest, output, containedCount, total =>
    let rr := line.relationZolygon p (r.stripStrict.stripDisjoint)
    let output := output.orRel rr
    let containedCount := if rr.contained.getD false then containedCount + 1 else containedCount
    if output.anyRelation && r.early_exit then output
    else ZultiLines.relZolygonLoop p r rest output containedCount total

/-- MultiLineString-vs-polygon relation (`zulti_lines.rs` lines 207-239).
After the loop the code applies `make_strict_contains_if_set` when the
contained-count reaches the member count. -/
def ZultiLines.relationZolygon (m : ZultiLines) (p : Zolygon) (r : InputRelation) :
    OutputRelation :=
  if m.isEmpty || p.isEmpty || m.bbox.disjointB p.bbox then
    r.toFalse.makeDisjointIfSet
  else
    ZultiLines.relZolygonLoop p r m.lines r.toFalse 0 m.len

/-- `src/zulti_polygons.rs` `ZultiPolygons` (MultiPolygon view), abstracting
the offset table to the decoded member list. -/
structure ZultiPolygons where
  bbox : BoundingBox
  polygons : List Zolygon
deriving DecidableEq, Repr

def ZultiPolygons.isEmpty (m : ZultiPolygons) : Bool := m.polygons.isEmpty

def ZultiPolygons.len (m : ZultiPolygons) : ℕ := m.polygons.length

/-- The loop of `ZultiPolygons`-vs-`Zolygon` (`zulti_polygons.rs` lines
220-231): OR-combining per-member results (with disjoint and strict-contained
stripped from the inner request), counting members individually contained. -/
def ZultiPolygons.relZolygonLoop (p : Zolygon) (r : InputRelation) :
    List Zolygon → OutputRelation → ℕ → OutputRelation × ℕ ⊕ OutputRelation
  | [], output, containedCount => .inl (output, containedCount)
  | z :: rest, output, containedCount =>
    let rr := z.relationNew p (r.stripDisjoint.stripStrictContained)
    let output := output.orRel rr
    let containedCount := if rr.contained.getD false then containedCount + 1 else containedCount
    if output.anyRelation && r.early_exit then .inr output
    else ZultiPolygons.relZolygonLoop p r rest output containedCount

/-- MultiPolygon-vs-polygon relation (`zulti_polygons.rs` lines 210-243). -/
def ZultiPolygons.relationZolygon (m : ZultiPolygons) (p : Zolygon) (r : InputRelation) :
    OutputRelation :=
  if m.isEmpty || p.isEmpty || m.bbox.disjointB p.bbox then
    r.toFalse.makeDisjointIfSet
  else
    match ZultiPolygons.relZolygonLoop p r m.polygons r.toFalse 0 with
    | .inr output => output
    | .inl (output, containedCount) =>
      let output := if m.len = containedCount then output.makeStrictContainedIfSet else output
      if output.anyRelation then output else output.makeDisjointIfSet

/-- The double loop of `ZultiPolygons`-vs-`ZultiPolygons` (`zulti_polygons.rs`
lines 255-266), flattened to the row-major pair list the nested `for` loops
visit: OR-combining pair results (strict and disjoint stripped from the inner
request), counting pairs that individually contain / are contained. -/
def ZultiPolygons.relMPLoop (r : InputRelation) :
    List (Zolygon × Zolygon) → OutputRelation → ℕ → ℕ → OutputRelation × ℕ × ℕ ⊕ OutputRelation
  | [], output, containsCount, containedCount => .inl (output, containsCount, containedCount)
  | (left, right) :: rest, output, containsCount, containedCount =>
    let rr := left.relationNew right (r.stripStrict.stripDisjoint)
    let output := output.orRel rr
    let containsCount := if rr.contains.getD false then containsCount + 1 else containsCount
    let containedCount := if rr.contained.getD false then containedCount + 1 else containedCount
    if output.anyRelation && r.early_exit then .inr output
    else ZultiPolygons.relMPLoop r rest output containsCount containedCount

/-- The row-major pair list visited by the nested loops. -/
def pairList (a b : List Zolygon) : List (Zolygon × Zolygon) :=
  a.flatMap fun left => b.map fun right => (left, right)

/-- MultiPolygon-vs-MultiPolygon relation (`zulti_polygons.rs` lines
245-281). -/
def ZultiPolygons.relationMP (m o : ZultiPolygons) (r : InputRelation) : OutputRelation :=
  if m.isEmpty || o.isEmpty || m.bbox.disjointB o.bbox then
    r.toFalse.makeDisjointIfSet
  else
    match ZultiPolygons.relMPLoop r (pairList m.polygons o.polygons) r.toFalse 0 0 with
    | .inr output => output
    | .inl (output, containsCount, containedCount) =>
      let output := if containsCount = o.len then output.makeStrictContainsIfSet else output
      let output := if containedCount = m.len then output.makeStrictContainedIfSet else output
      if output.anyRelation then output else output.makeDisjointIfSet

/-! ## The binary encoding (`write_from_geometry` / `from_bytes`)

The byte buffer is modelled as a list of typed slots.  Every write the
encoders perform is one of `f64::to_ne_bytes` (8 bytes), a `u32` (4 bytes,
counts / offsets / padding) or the `u64` geometry tag (8 bytes); float values
stay abstract rationals while sizes and offsets are counted in bytes exactly
as in the source.  Every read the decoders perform lands on a slot boundary
for encoder-produced buffers, so the model is exact there; a read that would
cut a slot corresponds to reinterpreting bytes the source never validates
(a panic or unchecked view in Rust) and is mapped to `none`. -/

/-- One primitive write: an 8-byte float, a 4-byte u32, or the 8-byte tag. -/
inductive Slot
  | f64 (q : ℚ)
  | u32 (n : ℕ)
  | u64 (n : ℕ)
deriving DecidableEq, Repr

/-- Byte width of a slot. -/
def Slot.size : Slot → ℕ
  | .f64 _ => 8
  | .u32 _ => 4
  | .u64 _ => 8

abbrev Buffer := List Slot

/-- `Vec::len` of the modelled byte buffer. -/
def byteLen (b : Buffer) : ℕ := (b.map Slot.size).sum

/-- State of the single fold in `BoundingBox::write_from_geometry`:
(top, bottom, left, right). -/
structure BBoxAcc where
  top : ℚ
  bottom : ℚ
  left : ℚ
  right : ℚ

/-- One step of the fold in `BoundingBox::write_from_geometry`. -/
def bboxStep (acc : BBoxAcc) (c : Coord) : BBoxAcc :=
  let acc := if c.lat > acc.top then { acc with top := c.lat } else acc
  let acc := if c.lat < acc.bottom then { acc with bottom := c.lat } else acc
  let acc := if c.lng < acc.left then { acc with left := c.lng } else acc
  if c.lng > acc.right then { acc with right := c.lng } else acc

/-- `BoundingBox::write_from_geometry` (`bounding_box.rs` lines 101-135):
seed from the first point (or the origin when there is none), fold the rest,
write `[left, bottom, right, top]`. -/
def bboxWrite (pts : List Coord) : Buffer :=
  let first := pts.headD ⟨0, 0⟩
  let acc := pts.tail.foldl bboxStep ⟨first.lat, first.lat, first.lng, first.lng⟩
  [.f64 acc.left, .f64 acc.bottom, .f64 acc.right, .f64 acc.top]

/-- The coordinate-list body every view writes after its bounding box. -/
def coordsWrite : List Coord → Buffer
  | [] => []
  | c :: rest => .f64 c.lng :: .f64 c.lat :: coordsWrite rest

/-- `Zoint::write_from_geometry`: the bare coordinate. -/
def zointWrite (c : Coord) : Buffer := [.f64 c.lng, .f64 c.lat]

/-- `ZultiPoints::write_from_geometry`: bounding box + coordinates. -/
def zultiPointsWrite (cs : List Coord) : Buffer := bboxWrite cs ++ coordsWrite cs

/-- `Zine::write_from_geometry`: bounding box + coordinates. -/
def zineWrite (cs : List Coord) : Buffer := bboxWrite cs ++ coordsWrite cs

/-- `Zolygon::write_from_geometry`: bounding box + exterior-ring
coordinates. -/
def zolygonWrite (ring : List Coord) : Buffer := bboxWrite ring ++ coordsWrite ring

/-- The patched-in offset table of `ZultiLines::write_from_geometry` /
`ZultiPolygons::write_from_geometry`: before writing member `i` the encoder
records `writer.len() - start`, the byte offset of that member's payload. -/
def offsetsOf : List Buffer → ℕ → List ℕ
  | [], _ => []
  | b :: rest, acc => acc :: offsetsOf rest (acc + byteLen b)

/-- Common body of `ZultiLines::write_from_geometry` (`zulti_lines.rs` lines
66-103) and `ZultiPolygons::write_from_geometry` (`zulti_polygons.rs` lines
62-98): bounding box over all member points, member count, offset table,
4-byte zero padding when the count is even, then the concatenated member
payloads. -/
def zultiWrite (writeMember : List Coord → Buffer) (members : List (List Coord)) : Buffer :=
  let payloads := members.map writeMember
  bboxWrite (members.flatten) ++
    (.u32 members.length :: (offsetsOf payloads 0).map .u32) ++
    (if members.length % 2 = 0 then [.u32 0] else []) ++
    payloads.flatten

/-- The external geometry model (`geo_types::Geometry`) restricted to what
the data model stores: rings without holes, collections only as the input of
the (unimplemented) collection encoder. -/
inductive Geometry
  | point (c : Coord)
  | multiPoint (cs : List Coord)
  | lineString (cs : List Coord)
  | multiLineString (ls : List (List Coord))
  | polygon (ring : List Coord)
  | multiPolygon (rings : List (List Coord))
  | geometryCollection (n : ℕ)
deriving DecidableEq, Repr

/-- `Zerometry::write_from_geometry` (src/lib.rs lines 454-498): tag then
payload.  The `GeometryCollection` arm is `todo!()` in the source — it
panics — modelled as `none`. -/
def zerometryWrite : Geometry → Option Buffer
  | .point c => some (.u64 0 :: zointWrite c)
  | .multiPoint cs => some (.u64 1 :: zultiPointsWrite cs)
  | .polygon ring => some (.u64 2 :: zolygonWrite ring)
  | .multiPolygon rings => some (.u64 3 :: zultiWrite zolygonWrite rings)
  | .lineString cs => some (.u64 4 :: zineWrite cs)
  | .multiLineString ls => some (.u64 5 :: zultiWrite zineWrite ls)
  | .geometryCollection _ => none

/-! ### Decoding -/

/-- Split a buffer at a byte position; `none` when the position cuts a slot
(a read the source never validates). -/
def splitAtBytes : Buffer → ℕ → Option (Buffer × Buffer)
  | b, 0 => some ([], b)
  | [], _ + 1 => none
  | s :: rest, n =>
    if s.size ≤ n then
      (splitAtBytes rest (n - s.size)).map fun p => (s :: p.1, p.2)
    else none

/-- Parse a flat run of coordinates (`Coords::from_bytes`): an even number of
floats. -/
def coordsRead : Buffer → Option (List Coord)
  | [] => some []
  | .f64 x :: .f64 y :: rest => (coordsRead rest).map fun cs => ⟨x, y⟩ :: cs
  | _ => none

/-- Parse a bounding box (`BoundingBox::from_bytes`): 4 leading floats. -/
def bboxRead : Buffer → Option (BoundingBox × Buffer)
  | .f64 l :: .f64 b :: .f64 r :: .f64 t :: rest => some (⟨⟨l, b⟩, ⟨r, t⟩⟩, rest)
  | _ => none

/-- `Zoint::from_bytes`: exactly one coordinate. -/
def zointRead : Buffer → Option Coord
  | [.f64 x, .f64 y] => some ⟨x, y⟩
  | _ => none

/-- `ZultiPoints::from_bytes` / `Zine::from_bytes` / `Zolygon::from_bytes`:
bounding box then the flat coordinate run. -/
def bboxCoordsRead (b : Buffer) : Option (BoundingBox × List Coord) := do
  let (bb, rest) ← bboxRead b
  let cs ← coordsRead rest
  pure (bb, cs)

/-- Read `n` offsets (`cast_slice` of the offset region). -/
def offsetsRead : ℕ → Buffer → Option (List ℕ × Buffer)
  | 0, b => some ([], b)
  | n + 1, .u32 o :: rest => (offsetsRead n rest).map fun p => (o :: p.1, p.2)
  | _ + 1, _ => none

/-- Member slices of a composite view (`get` in `zulti_lines.rs` /
`zulti_polygons.rs`): member `i` is `bytes[offsets[i]..offsets[i+1]]`, the
last one runs to the end of the payload. -/
def memberSlices : List ℕ → Buffer → Option (List Buffer)
  | [], _ => some []
  | [o], payload => do
    let (_, b) ← splitAtBytes payload o
    pure [b]
  | o₁ :: o₂ :: rest, payload => do
    let (_, tail₁) ← splitAtBytes payload o₁
    let (mem, _) ← splitAtBytes tail₁ (o₂ - o₁)
    let others ← memberSlices (o₂ :: rest) payload
    pure (mem :: others)

/-- Common body of `ZultiLines::from_bytes` (`zulti_lines.rs` lines 35-64)
and `ZultiPolygons::from_bytes` (`zulti_polygons.rs` lines 31-60): bounding
box, member count, offsets, 4 bytes of padding skipped when the count is
even, then the member payloads resolved through the offset table. -/
def zultiRead (memberRead : Buffer → Option α) (b : Buffer) :
    Option (BoundingBox × List α) := do
  let (bb, b) ← bboxRead b
  match b with
  | .u32 count :: b => do
    let (offs, b) ← offsetsRead count b
    let b ← if count % 2 = 0 then (splitAtBytes b 4).map Prod.snd else pure b
    let slices ← memberSlices offs b
    let members ← slices.mapM memberRead
    pure (bb, members)
  | _ => none

/-- `Zerometry` (src/lib.rs lines 32-41): the decoded tagged union.  The
`Collection` variant is never produced by `from_bytes` and is omitted. -/
inductive Zerometry
  | point (c : Coord)
  | multiPoints (m : BoundingBox × List Coord)
  | line (l : Zine)
  | multiLines (m : ZultiLines)
  | polygon (p : Zolygon)
  | multiPolygon (m : ZultiPolygons)
deriving DecidableEq, Repr

/-- Outcome of `Zerometry::from_bytes`: a decoded view, the explicit
`InvalidData` error for an unknown tag, or — for buffers the source would
panic on or reinterpret unchecked — `malformed`. -/
inductive DecodeOutcome
  | ok (z : Zerometry)
  | invalidTag
  | malformed
deriving DecidableEq, Repr

/-- `Zerometry::from_bytes` (src/lib.rs lines 435-451): read the 8-byte tag,
dispatch on `0..=5`, return the invalid-encoding error otherwise.  There is
no arm for tag 6. -/
def zerometryFromBytes : Buffer → DecodeOutcome
  | .u64 tag :: rest =>
    match tag with
    | 0 => match zointRead rest with
      | some c => .ok (.point c)
      | none => .malformed
    | 1 => match bboxCoordsRead rest with
      | some m => .ok (.multiPoints m)
      | none => .malformed
    | 2 => match bboxCoordsRead rest with
      | some (bb, cs) => .ok (.polygon ⟨bb, cs⟩)
      | none => .malformed
    | 3 => match zultiRead (fun s => (bboxCoordsRead s).map fun m => Zolygon.mk m.1 m.2) rest with
      | some (bb, ps) => .ok (.multiPolygon ⟨bb, ps⟩)
      | none => .malformed
    | 4 => match bboxCoordsRead rest with
      | some (bb, cs) => .ok (.line ⟨bb, cs⟩)
      | none => .malformed
    | 5 => match zultiRead (fun s => (bboxCoordsRead s).map fun m => Zine.mk m.1 m.2) rest with
      | some (bb, ls) => .ok (.multiLines ⟨bb, ls⟩)
      | none => .malformed
    | _ + 6 => .invalidTag
  | _ => .malformed

/-! ### `PartialEq<Geometry> for Zerometry` (src/lib.rs lines 714-732) -/

/-- Coordinate-list comparison used by every view's `PartialEq`: `zip` both
lists (truncating at the shorter) and compare pairwise. -/
def zipCoordsEq (zs gs : List Coord) : Bool :=
  (zs.zip gs).all fun p => p.1.lng == p.2.lng && p.1.lat == p.2.lat

/-- Member-list comparison of the multi views' `PartialEq`. -/
def zipMembersEq (zs : List (List Coord)) (gs : List (List Coord)) : Bool :=
  (zs.zip gs).all fun p => zipCoordsEq p.1 p.2

/-- `PartialEq<Geometry> for Zerometry`: kinds must match, then the view's
own zip-based comparison decides. -/
def zerometryEqGeometry : Zerometry → Geometry → Bool
  | .point c, .point g => c.lng == g.lng && c.lat == g.lat
  | .multiPoints m, .multiPoint gs => zipCoordsEq m.2 gs
  | .line l, .lineString gs => zipCoordsEq l.coords gs
  | .multiLines m, .multiLineString gs => zipMembersEq (m.lines.map Zine.coords) gs
  | .polygon p, .polygon g => zipCoordsEq p.coords g
  | .multiPolygon m, .multiPolygon gs => zipMembersEq (m.polygons.map Zolygon.coords) gs
  | _, _ => false

/-- Encode-then-decode: the composition claim C1 is about. -/
def roundtrip (g : Geometry) : Option Zerometry :=
  (zerometryWrite g).bind fun buf =>
    match zerometryFromBytes buf with
    | .ok z => some z
    | _ => none

/-- Whether a geometry is a collection — the kind whose encoder is
`todo!()`. -/
def Geometry.isCollection : Geometry → Bool
  | .geometryCollection _ => true
  | _ => false

/-! ## Concrete shapes used by the claims' scenarios

Ring lists carry the closing point, as the encoder stores them (the external
geometry library closes rings at construction); all coordinates are small
integers, on which `f64` arithmetic is exact. -/

/-- The empty polygon: degenerate bounding box at the origin, no coordinates. -/
def emptyZolygon : Zolygon := ⟨⟨⟨0, 0⟩, ⟨0, 0⟩⟩, []⟩

/-- Polygon `[(0,0),(10,0),(10,10),(0,10)]` of the spec's scenarios. -/
def sq10 : Zolygon := ⟨⟨⟨0, 0⟩, ⟨10, 10⟩⟩, [⟨0, 0⟩, ⟨10, 0⟩, ⟨10, 10⟩, ⟨0, 10⟩, ⟨0, 0⟩]⟩

/-- Polygon `[(1,1),(1,9),(9,9),(9,1)]` of the spec's scenarios. -/
def inner9 : Zolygon := ⟨⟨⟨1, 1⟩, ⟨9, 9⟩⟩, [⟨1, 1⟩, ⟨1, 9⟩, ⟨9, 9⟩, ⟨9, 1⟩, ⟨1, 1⟩]⟩

/-- A LineString lying fully inside `sq10`. -/
def lineIn : Zine := ⟨⟨⟨4, 4⟩, ⟨6, 4⟩⟩, [⟨4, 4⟩, ⟨6, 4⟩]⟩

/-- The single-member MultiLineString `[lineIn]`. -/
def mlIn : ZultiLines := ⟨⟨⟨4, 4⟩, ⟨6, 4⟩⟩, [lineIn]⟩

/-- 20×20 square containing `q6`. -/
def big20 : Zolygon := ⟨⟨⟨0, 0⟩, ⟨20, 20⟩⟩, [⟨0, 0⟩, ⟨20, 0⟩, ⟨20, 20⟩, ⟨0, 20⟩, ⟨0, 0⟩]⟩

/-- Small square inside `big20`, crossed by `pCross`. -/
def q6 : Zolygon := ⟨⟨⟨2, 2⟩, ⟨6, 6⟩⟩, [⟨2, 2⟩, ⟨6, 2⟩, ⟨6, 6⟩, ⟨2, 6⟩, ⟨2, 2⟩]⟩

/-- Tall thin rectangle crossing `q6`'s edges. -/
def pCross : Zolygon := ⟨⟨⟨4, 1⟩, ⟨5, 8⟩⟩, [⟨4, 1⟩, ⟨5, 1⟩, ⟨5, 8⟩, ⟨4, 8⟩, ⟨4, 1⟩]⟩

/-- MultiPolygon `[big20, pCross]`. -/
def mpA : ZultiPolygons := ⟨⟨⟨0, 0⟩, ⟨20, 20⟩⟩, [big20, pCross]⟩

/-- MultiPolygon `[q6]`. -/
def mpB : ZultiPolygons := ⟨⟨⟨2, 2⟩, ⟨6, 6⟩⟩, [q6]⟩

/-- The request `{contains, intersect, early_exit}`. -/
def reqCI : InputRelation := { contains := true, intersect := true, early_exit := true }

/-- The bounding box `BoundingBox::write_from_geometry` stores for a point
list (same fold as `bboxWrite`, assembled as a view). -/
def bbW (pts : List Coord) : BoundingBox :=
  let first := pts.headD ⟨0, 0⟩
  let acc := pts.tail.foldl bboxStep ⟨first.lat, first.lat, first.lng, first.lng⟩
  ⟨⟨acc.left, acc.bottom⟩, ⟨acc.right, acc.top⟩⟩

/-- The tag `Zerometry::write_from_geometry` would emit for a decoded view:
the table of src/lib.rs lines 435-451. -/
def Zerometry.kindTag : Zerometry → ℕ
  | .point _ => 0
  | .multiPoints _ => 1
  | .polygon _ => 2
  | .multiPolygon _ => 3
  | .line _ => 4
  | .multiLines _ => 5

/-- An output's set flags are exactly the requested ones (the pattern
`false_from_input` seeds and every combinator preserves). -/
def OutputRelation.matchesRequest (o : OutputRelation) (r : InputRelation) : Prop :=
  o.contains.isSome = r.contains ∧ o.strict_contains.isSome = r.strict_contains ∧
    o.contained.isSome = r.contained ∧ o.strict_contained.isSome = r.strict_contained ∧
    o.intersect.isSome = r.intersect ∧ o.disjoint.isSome = r.disjoint


/-! ## Helper lemmas -/

theorem orientationVal_sub_eq_crossDir (a b : Segment) :
    orientationVal a.start a.stop b.start - orientationVal a.start a.stop b.stop =
      crossDir a b := by
  unfold orientationVal crossDir; ring

theorem crossDir_swap (a b : Segment) : crossDir b a = -crossDir a b := by
  unfold crossDir; ring

theorem orientation_congr {p q : Coord} {r₁ r₂ : Coord}
    (h : orientationVal p q r₁ = orientationVal p q r₂) :
    orientation p q r₁ = orientation p q r₂ := by
  unfold orientation; rw [h]

theorem crossDir_ne_zero {a b : Segment}
    (h : orientation a.start a.stop b.start ≠ orientation a.start a.stop b.stop) :
    crossDir a b ≠ 0 := by
  intro h0
  exact h (orientation_congr (by
    have := orientationVal_sub_eq_crossDir a b
    rw [h0] at this
    linarith))

theorem generalPosition_swap (a b : Segment) : generalPosition b a ↔ generalPosition a b := by
  unfold generalPosition; tauto

theorem orientation_zero_of_val_zero {p q r : Coord} (h : orientationVal p q r = 0) :
    orientation p q r = 0 := by
  unfold orientation qabs
  rw [h]
  norm_num [epsilon]

theorem bboxBranch_facts (p1 p2 p3 p4 q1 q2 q3 q4 : Bool) :
    (bboxBranch p1 p2 p3 p4 q1 q2 q3 q4 = .Disjoint ↔
      bboxBranch q1 q2 q3 q4 p1 p2 p3 p4 = .Disjoint) ∧
    (bboxBranch p1 p2 p3 p4 q1 q2 q3 q4 = .Contained →
      bboxBranch q1 q2 q3 q4 p1 p2 p3 p4 = .Contains) := by
  revert p1 p2 p3 p4 q1 q2 q3 q4
  decide

theorem relationBB_flag_iff (s o : BoundingBox) :
    ((s.relationBB o .all).disjoint = some true ↔ s.relationCase o = .Disjoint) ∧
    ((s.relationBB o .all).contained = some true ↔ s.relationCase o = .Contained) ∧
    ((s.relationBB o .all).contains = some true ↔ s.relationCase o = .Contains) := by
  cases h : s.relationCase o <;> simp only [BoundingBox.relationBB, h] <;> refine ⟨?_, ?_, ?_⟩ <;>
    decide

set_option maxHeartbeats 1000000 in
theorem lineIn_sq10_no_crossing :
    (lineIn.segments.any fun s => sq10.segments.any fun t => s.intersects t) = false := by
  simp only [Zine.segments, Zolygon.segments, lineIn, sq10, consecutivePairs,
    Segment.intersects, generalPosition, orientation, orientationVal, onSegment, crossDir,
    qabs, qmin, qmax, epsilon]
  norm_num

set_option maxHeartbeats 1000000 in
theorem sq10_contains_lineIn_head : sq10.containsB (lineIn.coords.headD ⟨0, 0⟩) = true := by
  simp only [Zolygon.containsB, Zolygon.relationCoordNew, Zolygon.relationCoord, Zolygon.isEmpty,
    Zolygon.crossings, Zolygon.segments, sq10, lineIn, List.headD, consecutivePairs, rayTo,
    BoundingBox.containsCoord, BoundingBox.left, BoundingBox.right, BoundingBox.top,
    BoundingBox.bottom, Segment.intersects, generalPosition, orientation, orientationVal,
    onSegment, crossDir, qabs, qmin, qmax, epsilon, InputRelation.toFalse,
    OutputRelation.falseFromInput, OutputRelation.makeStrictContainsIfSet,
    OutputRelation.makeContainsIfSet, OutputRelation.makeDisjointIfSet, thenSomeFalse]
  norm_num

theorem lineIn_rel_sq10_stripped :
    lineIn.relationZolygon sq10 (InputRelation.all.stripStrict.stripDisjoint) =
      ⟨some false, none, some true, none, some false, none⟩ := by
  have hg : (lineIn.isEmpty || sq10.isEmpty || lineIn.bbox.disjointB sq10.bbox) = false := by
    decide
  simp only [Zine.relationZolygon, hg, lineIn_sq10_no_crossing, sq10_contains_lineIn_head]
  decide

theorem thenSomeFalse_isSome (b : Bool) : (thenSomeFalse b).isSome = b := by
  cases b <;> rfl

theorem toFalse_matches (r : InputRelation) : r.toFalse.matchesRequest r := by
  simp [OutputRelation.matchesRequest, InputRelation.toFalse, OutputRelation.falseFromInput,
    thenSomeFalse_isSome]

theorem orFlag_isSome (a b : Option Bool) : (orFlag a b).isSome = a.isSome := by
  cases a <;> rfl

theorem orRel_matches {o : OutputRelation} {r : InputRelation} (h : o.matchesRequest r)
    (x : OutputRelation) : (o.orRel x).matchesRequest r := by
  obtain ⟨h1, h2, h3, h4, h5, h6⟩ := h
  simp [OutputRelation.matchesRequest, OutputRelation.orRel, orFlag_isSome, h1, h2, h3, h4, h5, h6]

theorem mapTrue_isSome (a : Option Bool) : (a.map fun _ => true).isSome = a.isSome := by
  cases a <;> rfl

theorem matches_makeContains {o : OutputRelation} {r : InputRelation} (h : o.matchesRequest r) :
    o.makeContainsIfSet.matchesRequest r := by
  obtain ⟨h1, h2, h3, h4, h5, h6⟩ := h
  simp [OutputRelation.matchesRequest, OutputRelation.makeContainsIfSet, mapTrue_isSome,
    h1, h2, h3, h4, h5, h6]

theorem matches_makeStrictContains {o : OutputRelation} {r : InputRelation}
    (h : o.matchesRequest r) : o.makeStrictContainsIfSet.matchesRequest r := by
  obtain ⟨h1, h2, h3, h4, h5, h6⟩ := h
  simp [OutputRelation.matchesRequest, OutputRelation.makeStrictContainsIfSet,
    OutputRelation.makeContainsIfSet, mapTrue_isSome, h1, h2, h3, h4, h5, h6]

theorem matches_makeContained {o : OutputRelation} {r : InputRelation} (h : o.matchesRequest r) :
    o.makeContainedIfSet.matchesRequest r := by
  obtain ⟨h1, h2, h3, h4, h5, h6⟩ := h
  simp [OutputRelation.matchesRequest, OutputRelation.makeContainedIfSet, mapTrue_isSome,
    h1, h2, h3, h4, h5, h6]

theorem matches_makeStrictContained {o : OutputRelation} {r : InputRelation}
    (h : o.matchesRequest r) : o.makeStrictContainedIfSet.matchesRequest r := by
  obtain ⟨h1, h2, h3, h4, h5, h6⟩ := h
  simp [OutputRelation.matchesRequest, OutputRelation.makeStrictContainedIfSet,
    OutputRelation.makeContainedIfSet, mapTrue_isSome, h1, h2, h3, h4, h5, h6]

theorem matches_makeIntersect {o : OutputRelation} {r : InputRelation} (h : o.matchesRequest r) :
    o.makeIntersectIfSet.matchesRequest r := by
  obtain ⟨h1, h2, h3, h4, h5, h6⟩ := h
  simp [OutputRelation.matchesRequest, OutputRelation.makeIntersectIfSet, mapTrue_isSome,
    h1, h2, h3, h4, h5, h6]

theorem matches_makeDisjoint {o : OutputRelation} {r : InputRelation} (h : o.matchesRequest r) :
    o.makeDisjointIfSet.matchesRequest r := by
  obtain ⟨h1, h2, h3, h4, h5, h6⟩ := h
  simp [OutputRelation.matchesRequest, OutputRelation.makeDisjointIfSet, mapTrue_isSome,
    h1, h2, h3, h4, h5, h6]

theorem relMPLoop_matches_inl (r : InputRelation) :
    ∀ (pairs : List (Zolygon × Zolygon)) (o : OutputRelation) (cc cd : ℕ)
      (out : OutputRelation) (c1 c2 : ℕ), o.matchesRequest r →
      ZultiPolygons.relMPLoop r pairs o cc cd = .inl (out, c1, c2) → out.matchesRequest r := by
  intro pairs
  induction pairs with
  | nil =>
    intro o cc cd out c1 c2 h heq
    simp only [ZultiPolygons.relMPLoop, Sum.inl.injEq, Prod.mk.injEq] at heq
    rw [← heq.1]
    exact h
  | cons p rest ih =>
    intro o cc cd out c1 c2 h heq
    obtain ⟨l, rgt⟩ := p
    simp only [ZultiPolygons.relMPLoop] at heq
    by_cases hc :
        ((o.orRel (l.relationNew rgt (r.stripStrict.stripDisjoint))).anyRelation &&
          r.early_exit) = true
    · rw [if_pos hc] at heq
      exact absurd heq (by simp)
    · rw [if_neg hc] at heq
      exact ih _ _ _ _ _ _ (orRel_matches h _) heq

theorem relMPLoop_matches_inr (r : InputRelation) :
    ∀ (pairs : List (Zolygon × Zolygon)) (o : OutputRelation) (cc cd : ℕ)
      (out : OutputRelation), o.matchesRequest r →
      ZultiPolygons.relMPLoop r pairs o cc cd = .inr out → out.matchesRequest r := by
  intro pairs
  induction pairs with
  | nil =>
    intro o cc cd out h heq
    simp [ZultiPolygons.relMPLoop] at heq
  | cons p rest ih =>
    intro o cc cd out h heq
    obtain ⟨l, rgt⟩ := p
    simp only [ZultiPolygons.relMPLoop] at heq
    by_cases hc :
        ((o.orRel (l.relationNew rgt (r.stripStrict.stripDisjoint))).anyRelation &&
          r.early_exit) = true
    · rw [if_pos hc] at heq
      rw [show out = o.orRel (l.relationNew rgt (r.stripStrict.stripDisjoint)) by
        injection heq.symm]
      exact orRel_matches h _
    · rw [if_neg hc] at heq
      exact ih _ _ _ _ (orRel_matches h _) heq

theorem relationMP_matches (A B : ZultiPolygons) (r : InputRelation) :
    (A.relationMP B r).matchesRequest r := by
  unfold ZultiPolygons.relationMP
  split
  · exact matches_makeDisjoint (toFalse_matches r)
  · rcases heq : ZultiPolygons.relMPLoop r (pairList A.polygons B.polygons) r.toFalse 0 0 with
      ⟨out, c1, c2⟩ | out
    · have h := relMPLoop_matches_inl r _ _ _ _ _ _ _ (toFalse_matches r) heq
      dsimp only
      split_ifs <;>
        first
          | exact matches_makeDisjoint (matches_makeStrictContained (matches_makeStrictContains h))
          | exact matches_makeStrictContained (matches_makeStrictContains h)
          | exact matches_makeDisjoint (matches_makeStrictContained h)
          | exact matches_makeStrictContained h
          | exact matches_makeDisjoint (matches_makeStrictContains h)
          | exact matches_makeStrictContains h
          | exact matches_makeDisjoint h
          | exact h
    · have h := relMPLoop_matches_inr r _ _ _ _ _ (toFalse_matches r) heq
      exact h

set_option maxHeartbeats 4000000 in
theorem big20_q6_rel : big20.relationZolygon q6 = .Contains := by
  simp only [Zolygon.relationZolygon, Zolygon.relationCoord, Zolygon.isEmpty, Zolygon.crossings,
    Zolygon.segments, big20, q6, consecutivePairs, rayTo, BoundingBox.containsCoord,
    BoundingBox.relationCase, bboxBranch, rangeContains, BoundingBox.left, BoundingBox.right,
    BoundingBox.top, BoundingBox.bottom, Segment.intersects, generalPosition, orientation,
    orientationVal, onSegment, crossDir, qabs, qmin, qmax, epsilon]
  norm_num
  decide

set_option maxHeartbeats 4000000 in
theorem pCross_q6_rel : pCross.relationZolygon q6 = .Intersects := by
  simp only [Zolygon.relationZolygon, Zolygon.relationCoord, Zolygon.isEmpty, Zolygon.crossings,
    Zolygon.segments, pCross, q6, consecutivePairs, rayTo, BoundingBox.containsCoord,
    BoundingBox.relationCase, bboxBranch, rangeContains, BoundingBox.left, BoundingBox.right,
    BoundingBox.top, BoundingBox.bottom, Segment.intersects, generalPosition, orientation,
    orientationVal, onSegment, crossDir, qabs, qmin, qmax, epsilon]
  norm_num
  decide

theorem mpA_mpB_earlyExit :
    mpA.relationMP mpB reqCI = ⟨some true, none, none, none, some false, none⟩ := by
  have hg : (mpA.isEmpty || mpB.isEmpty || mpA.bbox.disjointB mpB.bbox) = false := by decide
  simp only [ZultiPolygons.relationMP, ZultiPolygons.relMPLoop, ZultiPolygons.len, pairList,
    mpA, mpB, hg, Zolygon.relationNew, big20_q6_rel, pCross_q6_rel, List.flatMap_cons,
    List.flatMap_nil, List.map_cons, List.map_nil, List.append_nil, List.cons_append,
    List.nil_append]
  decide

theorem mpA_mpB_all : (mpA.relationMP mpB .all).intersect = some true := by
  have hg : (mpA.isEmpty || mpB.isEmpty || mpA.bbox.disjointB mpB.bbox) = false := by decide
  simp only [ZultiPolygons.relationMP, ZultiPolygons.relMPLoop, ZultiPolygons.len, pairList,
    mpA, mpB, hg, Zolygon.relationNew, big20_q6_rel, pCross_q6_rel, List.flatMap_cons,
    List.flatMap_nil, List.map_cons, List.map_nil, List.append_nil, List.cons_append,
    List.nil_append]
  decide

theorem byteLen_append (a b : Buffer) : byteLen (a ++ b) = byteLen a + byteLen b := by
  simp [byteLen]

theorem slot_size_pos (s : Slot) : 0 < s.size := by
  cases s <;> simp [Slot.size]

theorem splitAtBytes_cons (s : Slot) (rest : Buffer) (n : ℕ) (h : s.size ≤ n) :
    splitAtBytes (s :: rest) n =
      (splitAtBytes rest (n - s.size)).map fun p => (s :: p.1, p.2) := by
  rcases n with _ | m
  · have := slot_size_pos s
    omega
  · simp only [splitAtBytes, if_pos h]

theorem splitAtBytes_exact (a b : Buffer) : splitAtBytes (a ++ b) (byteLen a) = some (a, b) := by
  induction a with
  | nil => simp [byteLen, splitAtBytes]
  | cons s rest ih =>
    rw [List.cons_append, show byteLen (s :: rest) = s.size + byteLen rest from by
      simp [byteLen], splitAtBytes_cons s _ _ (by omega)]
    simp [ih]

theorem memberSlices_offsetsOf (bufs : List Buffer) :
    ∀ (pre : Buffer), memberSlices (offsetsOf bufs (byteLen pre)) (pre ++ bufs.flatten) =
      some bufs := by
  induction bufs with
  | nil => intro pre; rfl
  | cons b rest ih =>
    intro pre
    cases rest with
    | nil =>
      simp only [offsetsOf, memberSlices, List.flatten_cons, List.flatten_nil, List.append_nil,
        splitAtBytes_exact, Option.bind_eq_bind, Option.some_bind]
      rfl
    | cons b2 rest2 =>
      simp only [offsetsOf, memberSlices, List.flatten_cons, Option.bind_eq_bind]
      rw [splitAtBytes_exact pre (b ++ (b2 ++ rest2.flatten))]
      simp only [Option.some_bind]
      rw [show byteLen pre + byteLen b - byteLen pre = byteLen b from by omega]
      rw [splitAtBytes_exact b (b2 ++ rest2.flatten)]
      simp only [Option.some_bind]
      rw [show byteLen pre + byteLen b = byteLen (pre ++ b) from (byteLen_append pre b).symm]
      have hih := ih (pre ++ b)
      simp only [offsetsOf, List.flatten_cons, List.append_assoc] at hih
      rw [hih]
      rfl

theorem splitAtBytes_pad (X : Buffer) :
    splitAtBytes (Slot.u32 0 :: X) 4 = some ([Slot.u32 0], X) := by
  simp [splitAtBytes, Slot.size]

theorem memberSlices_flatten (bufs : List Buffer) :
    memberSlices (offsetsOf bufs 0) bufs.flatten = some bufs := by
  have h := memberSlices_offsetsOf bufs []
  simp only [byteLen, List.map_nil, List.sum_nil, List.nil_append] at h
  exact h

theorem coordsRead_coordsWrite (cs : List Coord) : coordsRead (coordsWrite cs) = some cs := by
  induction cs with
  | nil => rfl
  | cons c rest ih => simp [coordsWrite, coordsRead, ih]

theorem bboxRead_bboxWrite (pts : List Coord) (rest : Buffer) :
    bboxRead (bboxWrite pts ++ rest) = some (bbW pts, rest) := by
  simp only [bboxWrite, bbW, List.cons_append, List.nil_append, bboxRead]

theorem bboxCoordsRead_write (cs : List Coord) :
    bboxCoordsRead (bboxWrite cs ++ coordsWrite cs) = some (bbW cs, cs) := by
  simp [bboxCoordsRead, bboxRead_bboxWrite, coordsRead_coordsWrite]

theorem offsetsOf_length (bufs : List Buffer) : ∀ (acc : ℕ),
    (offsetsOf bufs acc).length = bufs.length := by
  induction bufs with
  | nil => intro acc; rfl
  | cons b rest ih => intro acc; simp [offsetsOf, ih]

theorem offsetsRead_map_u32 (offs : List ℕ) : ∀ (rest : Buffer),
    offsetsRead offs.length (offs.map .u32 ++ rest) = some (offs, rest) := by
  induction offs with
  | nil => intro rest; rfl
  | cons o os ih => intro rest; simp [offsetsRead, ih]

theorem mapM_write {α : Type} (w : List Coord → Buffer) (f : Buffer → Option α)
    (v : List Coord → α) (h : ∀ cs, f (w cs) = some (v cs)) :
    ∀ (members : List (List Coord)), (members.map w).mapM f = some (members.map v) := by
  intro members
  induction members with
  | nil => rfl
  | cons c rest ih =>
    rw [List.map_cons, List.mapM_cons, h, ih]
    rfl

theorem zipCoordsEq_refl (cs : List Coord) : zipCoordsEq cs cs = true := by
  induction cs with
  | nil => rfl
  | cons c rest ih =>
    simp only [zipCoordsEq, List.zip_cons_cons, List.all_cons, beq_self_eq_true, Bool.and_self,
      Bool.true_and] at ih ⊢
    exact ih

theorem zipMembersEq_refl (ls : List (List Coord)) :
    zipMembersEq ls ls = true := by
  induction ls with
  | nil => rfl
  | cons l rest ih =>
    simp only [zipMembersEq, List.zip_cons_cons, List.all_cons, zipCoordsEq_refl,
      Bool.true_and] at ih ⊢
    exact ih

theorem zultiRead_zultiWrite {α : Type} (memberRead : Buffer → Option α)
    (v : List Coord → α) (w : List Coord → Buffer)
    (hmem : ∀ cs, memberRead (w cs) = some (v cs)) (members : List (List Coord)) :
    zultiRead memberRead (zultiWrite w members) =
      some (bbW members.flatten, members.map v) := by
  have hlen : members.length = (offsetsOf (members.map w) 0).length := by
    rw [offsetsOf_length, List.length_map]
  by_cases hp : members.length % 2 = 0
  · simp only [zultiWrite, zultiRead, if_pos hp, List.append_assoc, List.cons_append,
      List.nil_append]
    rw [bboxRead_bboxWrite]
    simp only [Option.bind_eq_bind, Option.some_bind]
    rw [hlen, offsetsRead_map_u32]
    simp only [Option.some_bind, ← hlen, if_pos hp]
    rw [splitAtBytes_pad]
    rw [show Option.map Prod.snd (some (([Slot.u32 0] : Buffer), (List.map w members).flatten)) =
      some ((List.map w members).flatten) from rfl]
    simp only [Option.some_bind, memberSlices_flatten, Option.bind_eq_bind, Option.pure_def]
    rw [mapM_write w memberRead v hmem]
    rfl
  · simp only [zultiWrite, zultiRead, if_neg hp, List.append_assoc, List.cons_append,
      List.nil_append]
    rw [bboxRead_bboxWrite]
    simp only [Option.bind_eq_bind, Option.some_bind]
    rw [hlen, offsetsRead_map_u32]
    simp only [Option.some_bind, ← hlen, if_neg hp]
    simp only [Option.some_bind, memberSlices_flatten, Option.bind_eq_bind, pure,
      Option.pure_def]
    rw [mapM_write w memberRead v hmem]
    rfl


/-! ## The claims -/

/-- C7: the claim says segment intersection is symmetric, `a.intersects b = b.intersects a`.
The code is symmetric only in the non-general-position branch; in the general-position
branch `cross_rs > 0.0` is a directional test, so swapping the arguments negates the
cross product and the two calls return opposite answers. -/
theorem c7 (a b : Segment) :
    (¬generalPosition a b → a.intersects b = b.intersects a) ∧
    (generalPosition a b → a.intersects b = !b.intersects a) := by
  constructor
  · intro h
    have h' : ¬generalPosition b a := fun hh => h ((generalPosition_swap a b).mp hh)
    unfold Segment.intersects
    rw [if_neg h, if_neg h']
    split_ifs <;> rfl
  · intro h
    have h' : generalPosition b a := (generalPosition_swap a b).mpr h
    have hne : crossDir a b ≠ 0 := crossDir_ne_zero h.1
    unfold Segment.intersects
    rw [if_pos h, if_pos h', show crossDir b a = -crossDir a b from crossDir_swap a b]
    rcases lt_trichotomy (crossDir a b) 0 with hlt | heq | hgt
    · have h1 : ¬crossDir a b > 0 := by linarith
      have h2 : -crossDir a b > 0 := by linarith
      simp [h1, h2]
    · exact absurd heq hne
    · have h1 : crossDir a b > 0 := hgt
      have h2 : ¬(-crossDir a b > 0) := by linarith
      simp [h1, h2]

/-- C7 counterexample: the diagonals of the unit square are in general position and
`Segment::intersects` answers differently depending on the argument order. -/
theorem c7_counterexample :
    Segment.intersects ⟨⟨0,0⟩,⟨1,1⟩⟩ ⟨⟨0,1⟩,⟨1,0⟩⟩ ≠
      Segment.intersects ⟨⟨0,1⟩,⟨1,0⟩⟩ ⟨⟨0,0⟩,⟨1,1⟩⟩ := by
  have h1 : Segment.intersects ⟨⟨0,0⟩,⟨1,1⟩⟩ ⟨⟨0,1⟩,⟨1,0⟩⟩ = false := by
    simp only [Segment.intersects, generalPosition, orientation, orientationVal, onSegment,
      crossDir, qabs, qmin, qmax, epsilon]
    norm_num
  have h2 : Segment.intersects ⟨⟨0,1⟩,⟨1,0⟩⟩ ⟨⟨0,0⟩,⟨1,1⟩⟩ = true := by
    simp only [Segment.intersects, generalPosition, orientation, orientationVal, onSegment,
      crossDir, qabs, qmin, qmax, epsilon]
    norm_num
  rw [h1, h2]
  simp

/-- C8: collinear overlapping segments do intersect.  When all four orientation values
vanish the code reaches its collinear special cases, and an overlap makes one of the four
`on_segment` tests fire, so `intersects` returns `true`.  (The shared-endpoint half of the
claim fails: see the counterexample.) -/
theorem c8 (a b : Segment)
    (h1 : orientationVal a.start a.stop b.start = 0)
    (h2 : orientationVal a.start a.stop b.stop = 0)
    (h3 : orientationVal b.start b.stop a.start = 0)
    (h4 : orientationVal b.start b.stop a.stop = 0)
    (hov : onSegment a.start b.start a.stop = true ∨ onSegment a.start b.stop a.stop = true ∨
      onSegment b.start a.start b.stop = true ∨ onSegment b.start a.stop b.stop = true) :
    a.intersects b = true := by
  have o1 := orientation_zero_of_val_zero h1
  have o2 := orientation_zero_of_val_zero h2
  have o3 := orientation_zero_of_val_zero h3
  have o4 := orientation_zero_of_val_zero h4
  have hng : ¬generalPosition a b := by
    unfold generalPosition
    rw [o1, o2]
    tauto
  unfold Segment.intersects
  rw [if_neg hng, o1, o2, o3, o4]
  split_ifs <;> simp_all

/-- C8 witness: the collinear overlapping pair `(0,0)-(2,2)` and `(1,1)-(3,3)`. -/
theorem c8_witness :
    (orientationVal ⟨0,0⟩ ⟨2,2⟩ ⟨1,1⟩ = 0 ∧ orientationVal ⟨0,0⟩ ⟨2,2⟩ ⟨3,3⟩ = 0 ∧
      orientationVal ⟨1,1⟩ ⟨3,3⟩ ⟨0,0⟩ = 0 ∧ orientationVal ⟨1,1⟩ ⟨3,3⟩ ⟨2,2⟩ = 0 ∧
      onSegment ⟨0,0⟩ ⟨1,1⟩ ⟨2,2⟩ = true) ∧
    Segment.intersects ⟨⟨0,0⟩,⟨2,2⟩⟩ ⟨⟨1,1⟩,⟨3,3⟩⟩ = true := by
  refine ⟨⟨?_, ?_, ?_, ?_, ?_⟩, c8 ⟨⟨0,0⟩,⟨2,2⟩⟩ ⟨⟨1,1⟩,⟨3,3⟩⟩ ?_ ?_ ?_ ?_ (Or.inl ?_)⟩ <;>
    norm_num [orientationVal, onSegment, qmin, qmax]

/-- C8 counterexample: the segments `(0,0)-(1,0)` and `(2,1)-(1,0)` share the endpoint
`(1,0)` yet are in general position, and the directional cross test rejects them, so
`Segment::intersects` returns `false` for a shared-endpoint pair. -/
theorem c8_counterexample :
    Segment.stop ⟨⟨0,0⟩,⟨1,0⟩⟩ = Segment.stop ⟨⟨2,1⟩,⟨1,0⟩⟩ ∧
    Segment.intersects ⟨⟨0,0⟩,⟨1,0⟩⟩ ⟨⟨2,1⟩,⟨1,0⟩⟩ = false := by
  constructor
  · rfl
  · simp only [Segment.intersects, generalPosition, orientation, orientationVal, onSegment,
      crossDir, qabs, qmin, qmax, epsilon]
    norm_num

/-- C6: for bounding boxes, `Disjoint` is symmetric and `A.relation(B) = Contained`
implies `B.relation(A) = Contains` (proved over all 256 corner-containment patterns of
the branch structure of `bounding_box.rs`).  The converse equivalences of the claim fail:
see the counterexample. -/
theorem c6 (A B : BoundingBox) :
    ((A.relationBB B .all).disjoint = some true ↔ (B.relationBB A .all).disjoint = some true) ∧
    ((A.relationBB B .all).contained = some true → (B.relationBB A .all).contains = some true) := by
  have hb : (A.relationCase B = .Disjoint ↔ B.relationCase A = .Disjoint) ∧
      (A.relationCase B = .Contained → B.relationCase A = .Contains) := by
    unfold BoundingBox.relationCase
    exact bboxBranch_facts _ _ _ _ _ _ _ _
  constructor
  · rw [(relationBB_flag_iff A B).1, (relationBB_flag_iff B A).1]
    exact hb.1
  · intro h
    exact (relationBB_flag_iff B A).2.2.mpr (hb.2 ((relationBB_flag_iff A B).2.1.mp h))

/-- C6 counterexample: a box related to itself reports `Contains` (all four of the other
box's corners are inside it) but not `Contained`, so the Contains/Contained equivalence
of the claim fails. -/
theorem c6_counterexample :
    ¬(((BoundingBox.relationBB ⟨⟨0,0⟩,⟨1,1⟩⟩ ⟨⟨0,0⟩,⟨1,1⟩⟩ .all).contains = some true) ↔
      ((BoundingBox.relationBB ⟨⟨0,0⟩,⟨1,1⟩⟩ ⟨⟨0,0⟩,⟨1,1⟩⟩ .all).contained = some true)) := by
  decide

set_option maxHeartbeats 2000000 in
/-- C3: the polygon-vs-coordinate relation returns `Disjoint` for an empty polygon or a
coordinate outside the bounding box, and otherwise decides by the parity of the crossing
count of the horizontal ray from the bounding box's left edge; on the concrete square
`[(0,0),(10,0),(10,10),(0,10)]` it reports `Contains` at `(5,5)` and `Disjoint` at
`(15,15)`. -/
theorem c3 (P : Zolygon) (c : Coord) :
    (P.isEmpty = true → P.relationCoord c = .Disjoint) ∧
    (P.bbox.containsCoord c = false → P.relationCoord c = .Disjoint) ∧
    (P.isEmpty = false → P.bbox.containsCoord c = true →
      P.relationCoord c = if P.crossings c % 2 = 0 then .Disjoint else .Contains) ∧
    sq10.relationCoord ⟨5, 5⟩ = .Contains ∧ sq10.relationCoord ⟨15, 15⟩ = .Disjoint := by
  refine ⟨?_, ?_, ?_, ?_, ?_⟩
  · intro h
    simp [Zolygon.relationCoord, h]
  · intro h
    simp [Zolygon.relationCoord, h]
  · intro h1 h2
    simp [Zolygon.relationCoord, h1, h2]
  · simp only [Zolygon.relationCoord, Zolygon.isEmpty, Zolygon.crossings, Zolygon.segments, sq10,
      consecutivePairs, rayTo, BoundingBox.containsCoord, BoundingBox.left, BoundingBox.right,
      BoundingBox.top, BoundingBox.bottom, Segment.intersects, generalPosition, orientation,
      orientationVal, onSegment, crossDir, qabs, qmin, qmax, epsilon]
    norm_num
  · simp only [Zolygon.relationCoord, Zolygon.isEmpty, Zolygon.crossings, Zolygon.segments, sq10,
      consecutivePairs, rayTo, BoundingBox.containsCoord, BoundingBox.left, BoundingBox.right,
      BoundingBox.top, BoundingBox.bottom, Segment.intersects, generalPosition, orientation,
      orientationVal, onSegment, crossDir, qabs, qmin, qmax, epsilon]
    norm_num

set_option maxHeartbeats 4000000 in
/-- C2: the polygon-vs-polygon relation of `zolygon.rs`: empty inputs or disjoint
bounding boxes give `Disjoint`; an edge intersection gives `Intersects`; otherwise one
vertex of each polygon is sampled against the other to decide `Contained` / `Contains` /
`Disjoint`; and on the concrete pair, the outer 10-square `Contains` the inner 9-square
and the inner square is `Contained` in the outer one. -/
theorem c2 (A B : Zolygon) :
    ((A.isEmpty = true ∨ B.isEmpty = true ∨ A.bbox.relationCase B.bbox = .Disjoint) →
      A.relationZolygon B = .Disjoint) ∧
    (A.isEmpty = false → B.isEmpty = false → A.bbox.relationCase B.bbox ≠ .Disjoint →
      (A.segments.any fun s => B.segments.any fun t => s.intersects t) = true →
      A.relationZolygon B = .Intersects) ∧
    (A.isEmpty = false → B.isEmpty = false → A.bbox.relationCase B.bbox ≠ .Disjoint →
      (A.segments.any fun s => B.segments.any fun t => s.intersects t) = false →
      A.relationZolygon B =
        (if B.relationCoord (A.coords.headD ⟨0, 0⟩) = .Contains then .Contained
         else if A.relationCoord (B.coords.headD ⟨0, 0⟩) = .Contains then .Contains
         else .Disjoint)) ∧
    sq10.relationZolygon inner9 = .Contains ∧ inner9.relationZolygon sq10 = .Contained := by
  refine ⟨?_, ?_, ?_, ?_, ?_⟩
  · rintro (h | h | h) <;> simp [Zolygon.relationZolygon, h]
  · intro h1 h2 h3 h4
    simp [Zolygon.relationZolygon, h1, h2, h3, h4, beq_iff_eq]
  · intro h1 h2 h3 h4
    simp [Zolygon.relationZolygon, h1, h2, h3, h4, beq_iff_eq]
  · simp only [Zolygon.relationZolygon, Zolygon.relationCoord, Zolygon.isEmpty, Zolygon.crossings,
      Zolygon.segments, sq10, inner9, consecutivePairs, rayTo, BoundingBox.containsCoord,
      BoundingBox.relationCase, bboxBranch, rangeContains, BoundingBox.left, BoundingBox.right,
      BoundingBox.top, BoundingBox.bottom, Segment.intersects, generalPosition, orientation,
      orientationVal, onSegment, crossDir, qabs, qmin, qmax, epsilon]
    norm_num
    decide
  · simp only [Zolygon.relationZolygon, Zolygon.relationCoord, Zolygon.isEmpty, Zolygon.crossings,
      Zolygon.segments, sq10, inner9, consecutivePairs, rayTo, BoundingBox.containsCoord,
      BoundingBox.relationCase, bboxBranch, rangeContains, BoundingBox.left, BoundingBox.right,
      BoundingBox.top, BoundingBox.bottom, Segment.intersects, generalPosition, orientation,
      orientationVal, onSegment, crossDir, qabs, qmin, qmax, epsilon]
    norm_num
    decide

/-- C9: for a non-empty LineString against a non-empty polygon with overlapping bounding
boxes, an edge intersection sets the intersect flag (and leaves contains at `false`), and
with no intersection and the first vertex inside the polygon the contained and
strict-contained flags are set while contains stays `false` - the line is never reported
as containing the polygon. -/
theorem c9 (L : Zine) (P : Zolygon)
    (hL : L.isEmpty = false) (hP : P.isEmpty = false)
    (hbb : L.bbox.disjointB P.bbox = false) :
    ((L.segments.any fun s => P.segments.any fun t => s.intersects t) = true →
      (L.relationZolygon P .all).intersect = some true ∧
      (L.relationZolygon P .all).contains = some false) ∧
    ((L.segments.any fun s => P.segments.any fun t => s.intersects t) = false →
      P.containsB (L.coords.headD ⟨0, 0⟩) = true →
      (L.relationZolygon P .all).contained = some true ∧
      (L.relationZolygon P .all).strict_contained = some true ∧
      (L.relationZolygon P .all).contains = some false) := by
  constructor
  · intro hseg
    simp [Zine.relationZolygon, hL, hP, hbb, hseg, InputRelation.toFalse,
      OutputRelation.falseFromInput, OutputRelation.makeIntersectIfSet, thenSomeFalse,
      InputRelation.all]
  · intro hseg hin
    rw [List.headD_eq_head?] at hin
    simp [Zine.relationZolygon, hL, hP, hbb, hseg, hin, InputRelation.toFalse,
      OutputRelation.falseFromInput, OutputRelation.makeStrictContainedIfSet,
      OutputRelation.makeContainedIfSet, thenSomeFalse, InputRelation.all]

/-- C9 witness: the line `(4,4)-(6,4)` inside the square `[(0,0),(10,0),(10,10),(0,10)]`
is reported contained and strictly contained, and not containing. -/
theorem c9_witness :
    (lineIn.isEmpty = false ∧ sq10.isEmpty = false ∧ lineIn.bbox.disjointB sq10.bbox = false) ∧
    ((lineIn.relationZolygon sq10 .all).contained = some true ∧
      (lineIn.relationZolygon sq10 .all).strict_contained = some true ∧
      (lineIn.relationZolygon sq10 .all).contains = some false) :=
  ⟨⟨rfl, rfl, by decide⟩,
    (c9 lineIn sq10 rfl rfl (by decide)).2 lineIn_sq10_no_crossing sq10_contains_lineIn_head⟩

/-- C10: evaluation exposing the strict-flag slip of `zulti_lines.rs`.  The
MultiLineString `[(4,4)-(6,4)]` lies fully inside the square polygon, so every member is
contained and the claim expects the strict-CONTAINED flag to be set from the contained
count.  The code instead calls `make_strict_contains_if_set` (line 230), so the result
sets `strict_contains = true` (and `contains = true` with it) while `strict_contained`
stays `false` - the parallel MultiLineString-vs-MultiPolygon loop (line 265) applies
`make_strict_contained_if_set` to the same count. -/
theorem c10_eval :
    mlIn.relationZolygon sq10 .all =
      ⟨some true, some true, some true, some false, some false, some false⟩ := by
  have hg : (mlIn.isEmpty || sq10.isEmpty || mlIn.bbox.disjointB sq10.bbox) = false := by
    decide
  simp only [ZultiLines.relationZolygon, ZultiLines.relZolygonLoop, ZultiLines.len, mlIn, hg,
    lineIn_rel_sq10_stripped]
  decide

/-- C5: with `early_exit` set the MultiPolygon-vs-MultiPolygon relation returns as soon
as `any_relation()` holds, and every requested flag keeps the `Some(false)` seeded by
`false_from_input` rather than becoming `None`; concretely, for `mpA = [big20, pCross]`
vs `mpB = [q6]` under a contains+intersect early-exit request, the first member pair
already gives `contains = some true`, the loop stops, and `intersect` is reported
`some false` even though `pCross` really intersects `q6` (the full run reports
`intersect = some true`). -/
theorem c5 (A B : ZultiPolygons) (r : InputRelation) :
    (A.relationMP B r).matchesRequest r ∧
    ((mpA.relationMP mpB reqCI).contains = some true ∧
      (mpA.relationMP mpB reqCI).intersect = some false ∧
      (mpA.relationMP mpB .all).intersect = some true) :=
  ⟨relationMP_matches A B r, by rw [mpA_mpB_earlyExit], by rw [mpA_mpB_earlyExit], mpA_mpB_all⟩

/-- C4: `Zerometry::from_bytes` decodes tags 0-5 (Point, MultiPoint, Polygon,
MultiPolygon, LineString, MultiLineString) to views of the corresponding kind and
reports the invalid-tag error for every tag that is at least 6.  The claim's table entry
`6 = GeometryCollection` does not exist in the decoder: see the counterexample. -/
theorem c4 (t : ℕ) (rest : Buffer) :
    (t ≤ 5 → zerometryFromBytes (.u64 t :: rest) ≠ .invalidTag) ∧
    (∀ z, zerometryFromBytes (.u64 t :: rest) = .ok z → z.kindTag = t) ∧
    (6 ≤ t → zerometryFromBytes (.u64 t :: rest) = .invalidTag) := by
  rcases Nat.lt_or_ge t 6 with h6 | h6
  · interval_cases t <;>
      refine ⟨fun _ => ?_, fun z hz => ?_, fun hc => by omega⟩ <;>
      first
        | (simp only [zerometryFromBytes]; split <;> simp)
        | (simp only [zerometryFromBytes] at hz; split at hz <;> simp_all [Zerometry.kindTag] ;
            (subst hz; rfl))
  · obtain ⟨k, rfl⟩ : ∃ k, t = k + 6 := ⟨t - 6, by omega⟩
    exact ⟨fun hle => by omega, fun z hz => by simp [zerometryFromBytes] at hz, fun _ => rfl⟩

/-- C4 counterexample: tag 6, which the claim's table assigns to GeometryCollection, is
rejected as an invalid encoding. -/
theorem c4_counterexample : zerometryFromBytes [Slot.u64 6] = .invalidTag := rfl

/-- C1: the encode-then-decode round trip holds for the six kinds the encoder supports
(Point, MultiPoint, LineString, MultiLineString, Polygon, MultiPolygon), including empty
member lists; GeometryCollection is excluded because its encoder arm is `todo!()` and
panics.  The decoded view equals the input geometry coordinate by coordinate. -/
theorem c1 (g : Geometry) (h : g.isCollection = false) :
    ∃ z, roundtrip g = some z ∧ zerometryEqGeometry z g = true := by
  cases g with
  | point c =>
    refine ⟨.point c, rfl, ?_⟩
    simp [zerometryEqGeometry]
  | multiPoint cs =>
    refine ⟨.multiPoints (bbW cs, cs), ?_, ?_⟩
    · simp only [roundtrip, zerometryWrite, zultiPointsWrite, Option.bind_eq_bind,
        Option.some_bind, zerometryFromBytes, bboxCoordsRead_write]
    · simp [zerometryEqGeometry, zipCoordsEq_refl]
  | lineString cs =>
    refine ⟨.line ⟨bbW cs, cs⟩, ?_, ?_⟩
    · simp only [roundtrip, zerometryWrite, zineWrite, Option.bind_eq_bind,
        Option.some_bind, zerometryFromBytes, bboxCoordsRead_write]
    · simp [zerometryEqGeometry, zipCoordsEq_refl]
  | polygon ring =>
    refine ⟨.polygon ⟨bbW ring, ring⟩, ?_, ?_⟩
    · simp only [roundtrip, zerometryWrite, zolygonWrite, Option.bind_eq_bind,
        Option.some_bind, zerometryFromBytes, bboxCoordsRead_write]
    · simp [zerometryEqGeometry, zipCoordsEq_refl]
  | multiLineString ls =>
    refine ⟨.multiLines ⟨bbW ls.flatten, ls.map fun cs => Zine.mk (bbW cs) cs⟩, ?_, ?_⟩
    · simp only [roundtrip, zerometryWrite, Option.bind_eq_bind, Option.some_bind,
        zerometryFromBytes]
      rw [zultiRead_zultiWrite (fun s => (bboxCoordsRead s).map fun m => Zine.mk m.1 m.2)
        (fun cs => Zine.mk (bbW cs) cs) zineWrite (fun cs => by
          simp [zineWrite, bboxCoordsRead_write]) ls]
    · simp [zerometryEqGeometry, zipMembersEq_refl, List.map_map, Function.comp_def]
  | multiPolygon rings =>
    refine ⟨.multiPolygon ⟨bbW rings.flatten, rings.map fun cs => Zolygon.mk (bbW cs) cs⟩, ?_, ?_⟩
    · simp only [roundtrip, zerometryWrite, Option.bind_eq_bind, Option.some_bind,
        zerometryFromBytes]
      rw [zultiRead_zultiWrite (fun s => (bboxCoordsRead s).map fun m => Zolygon.mk m.1 m.2)
        (fun cs => Zolygon.mk (bbW cs) cs) zolygonWrite (fun cs => by
          simp [zolygonWrite, bboxCoordsRead_write]) rings]
    · simp [zerometryEqGeometry, zipMembersEq_refl, List.map_map, Function.comp_def]
  | geometryCollection n =>
    simp [Geometry.isCollection] at h

/-- C1 counterexample: encoding a GeometryCollection does not succeed - the encoder arm
is `todo!()`, modelled as `none`, so the claimed all-kinds round trip fails there. -/
theorem c1_counterexample : roundtrip (.geometryCollection 0) = none := rfl

/-- C1 witness: a concrete MultiLineString with one two-point member and one empty
member round-trips. -/
theorem c1_witness :
    (Geometry.multiLineString [[⟨1, 2⟩, ⟨3, 4⟩], []]).isCollection = false ∧
    ∃ z, roundtrip (.multiLineString [[⟨1, 2⟩, ⟨3, 4⟩], []]) = some z ∧
      zerometryEqGeometry z (.multiLineString [[⟨1, 2⟩, ⟨3, 4⟩], []]) = true :=
  ⟨rfl, c1 (.multiLineString [[⟨1, 2⟩, ⟨3, 4⟩], []]) rfl⟩

end Zerometry
